import Mathlib

/-!
Verification of the IPv6 part of the ipaddress library (src/rust/src/ipv6.rs).

The file embeds the source functions of ipv6.rs shallowly in Lean:
Rust BigUint values become Nat, usize becomes Nat, fallible functions
return Except String or Option, and the one place where the source can
panic (an unwrap in the textual constructor) is made explicit through the
MayPanic wrapper.  Helper functions of the repository that are declared
outside src (split_at_slash, is_valid_ipv6, split_to_num, prefix128::new,
includes, parse) are modelled from the specification document, and each of
those carries a doc comment saying so.
-/

/-- Result of a Rust computation that may panic: either a value or a panic.
Used for ipv6::new, whose source contains an unwrap of a usize parse. -/
inductive MayPanic (α : Type) where
  | panicked : MayPanic α
  | value : α → MayPanic α
deriving Repr, DecidableEq

/-- Decimal digit test on a character (ASCII 0-9). -/
def isDigitChar (c : Char) : Bool :=
  48 ≤ c.toNat && c.toNat ≤ 57

/-- Accumulating decimal parse of a digit list; fails on any non-digit.
Models the digit loop of Rust core integer from_str parsing. -/
def decDigitsAux : List Char → Nat → Option Nat
  | [], acc => some acc
  | c :: cs, acc =>
    if isDigitChar c then decDigitsAux cs (acc * 10 + (c.toNat - 48)) else none

/-- Core of Rust unsigned-integer from_str: an optional leading plus sign
followed by one or more decimal digits; value returned without any range
bound (bounds are applied by the per-type wrappers below). -/
def dec_core (s : String) : Option Nat :=
  let cs :=
    match s.data with
    | '+' :: rest => rest
    | cs => cs
  match cs with
  | [] => none
  | _ :: _ => decDigitsAux cs 0

/-- Unbounded reading of a decimal integer string (what a prefix part means
as a plain decimal number, independent of any machine width). -/
def dec_value (s : String) : Option Nat :=
  dec_core s

/-- Model of Rust u8::from_str: decimal parse, value must fit in 8 bits. -/
def u8_from_str (s : String) : Option Nat :=
  match dec_core s with
  | some n => if n ≤ 255 then some n else none
  | none => none

/-- Model of Rust str::parse::<usize> on a 64-bit platform: decimal parse,
value must fit in 64 bits. -/
def usize_from_str (s : String) : Option Nat :=
  match dec_core s with
  | some n => if n ≤ 18446744073709551615 then some n else none
  | none => none

/-- Numeric value of one character as a digit in radices up to 36
(0-9, a-z, A-Z); 255 marks a non-digit character. -/
def digitVal (c : Char) : Nat :=
  if 48 ≤ c.toNat ∧ c.toNat ≤ 57 then c.toNat - 48
  else if 97 ≤ c.toNat ∧ c.toNat ≤ 122 then c.toNat - 97 + 10
  else if 65 ≤ c.toNat ∧ c.toNat ≤ 90 then c.toNat - 65 + 10
  else 255

/-- Digit loop of num-bigint from_str_radix: underscores are skipped,
any character whose digit value is not below the radix fails the parse. -/
def radixDigitsAux (radix : Nat) : List Char → Nat → Option Nat
  | [], acc => some acc
  | c :: cs, acc =>
    if c = '_' then radixDigitsAux radix cs acc
    else if digitVal c < radix then radixDigitsAux radix cs (acc * radix + digitVal c)
    else none

/-- Model of num-bigint BigUint::from_str_radix: one optional leading plus
sign, then a nonempty digit sequence in the given radix; a leading
underscore is rejected; defined for radices 2..=36 (outside that range the
Rust function asserts). -/
def biguint_from_str_radix (s : String) (radix : Nat) : Option Nat :=
  let cs :=
    match s.data with
    | '+' :: rest => rest
    | cs => cs
  match cs with
  | [] => none
  | '_' :: _ => none
  | _ :: _ => radixDigitsAux radix cs 0

/-- Helper for split_at_slash: scan for the first slash character. -/
def splitAtFirstSlashAux : List Char → List Char → String × Option String
  | [], acc => (String.mk acc.reverse, none)
  | '/' :: xs, acc => (String.mk acc.reverse, some (String.mk xs))
  | x :: xs, acc => splitAtFirstSlashAux xs (x :: acc)

/-- Modelled from the spec: split_at_slash(s) splits on the first slash into
an address part and an optional prefix part; absence of a slash yields no
prefix part.  The repository defines this outside src. -/
def split_at_slash (str : String) : String × Option String :=
  splitAtFirstSlashAux str.data []

/-- Split a character list on every occurrence of a single separator
character (the colon between groups). -/
def splitOnCharAux (sep : Char) : List Char → List Char → List (List Char)
  | [], cur => [cur.reverse]
  | x :: xs, cur =>
    if x = sep then cur.reverse :: splitOnCharAux sep xs []
    else splitOnCharAux sep xs (x :: cur)

/-- Split on the colon separator. -/
def splitColon (cs : List Char) : List (List Char) :=
  splitOnCharAux ':' cs []

/-- Split a character list on every occurrence of the two-character
compression marker (a double colon), scanning left to right. -/
def splitCCAux : List Char → List Char → List (List Char)
  | [], cur => [cur.reverse]
  | ':' :: ':' :: xs, cur => cur.reverse :: splitCCAux xs []
  | x :: xs, cur => splitCCAux xs (x :: cur)

/-- Split on the double-colon compression marker. -/
def splitCC (cs : List Char) : List (List Char) :=
  splitCCAux cs []

/-- Group list of one side of a compression marker: an empty side holds no
groups, otherwise the side is split on colons. -/
def groupsOf (cs : List Char) : List (List Char) :=
  match cs with
  | [] => []
  | _ :: _ => splitColon cs

/-- Hexadecimal digit test on a character (0-9, a-f, A-F). -/
def isHexDigitChar (c : Char) : Bool :=
  (48 ≤ c.toNat && c.toNat ≤ 57) ||
  (97 ≤ c.toNat && c.toNat ≤ 102) ||
  (65 ≤ c.toNat && c.toNat ≤ 70)

/-- A textual group of the wide family: one to four hexadecimal digits. -/
def isValidGroup (g : List Char) : Bool :=
  decide (1 ≤ g.length) && decide (g.length ≤ 4) && g.all isHexDigitChar

/-- Modelled from the spec (section 4.3): the grammar of a wide-family
address part, returning the expanded list of exactly eight groups when the
text is grammatical and none otherwise.  Without a compression marker the
text must be exactly eight valid groups; with one marker, both sides must
be valid group lists whose total count leaves at least one elided zero
group; more than one marker is invalid.  The repository defines the
corresponding validation and expansion outside src. -/
def expandGroups (cs : List Char) : Option (List (List Char)) :=
  match splitCC cs with
  | [p] =>
    let gs := splitColon p
    if decide (gs.length = 8) && gs.all isValidGroup then some gs else none
  | [l, r] =>
    let gl := groupsOf l
    let gr := groupsOf r
    if gl.all isValidGroup && gr.all isValidGroup && decide (gl.length + gr.length ≤ 7)
    then some (gl ++ List.replicate (8 - (gl.length + gr.length)) ['0'] ++ gr)
    else none
  | _ => none

/-- Modelled from the spec: is_valid_ipv6 accepts exactly the texts of the
wide-family grammar of section 4.3. -/
def is_valid_ipv6 (addr : String) : Bool :=
  (expandGroups addr.data).isSome

/-- Value of one hexadecimal digit character. -/
def hexVal (c : Char) : Nat :=
  if 48 ≤ c.toNat ∧ c.toNat ≤ 57 then c.toNat - 48
  else if 97 ≤ c.toNat ∧ c.toNat ≤ 102 then c.toNat - 87
  else c.toNat - 55

/-- Accumulating hexadecimal value of a group. -/
def parseHexGroupAux : List Char → Nat → Nat
  | [], acc => acc
  | c :: cs, acc => parseHexGroupAux cs (acc * 16 + hexVal c)

/-- Numeric value of one group, parsed in the wide family radix (16). -/
def parseHexGroup (g : List Char) : Nat :=
  parseHexGroupAux g 0

/-- Modelled from the spec (section 4.3): split_to_num expands the
compression marker to exactly eight groups, parses each group in radix 16,
and composes the value most-significant group first; a grammar violation
fails with an Unparsable error carrying the raw text.  The repository
defines this outside src. -/
def split_to_num (addr : String) : Except String Nat :=
  match expandGroups addr.data with
  | none => .error ("Unparsable " ++ addr)
  | some gs => .ok (gs.foldl (fun acc g => acc * 65536 + parseHexGroup g) 0)

/-- Modelled from the spec (sections 3 and 4.2): a validated prefix length
of the wide family, an integer 0..=128.  The repository defines the prefix
type outside src (prefix128).  Lean reserves the word used by the source
for its field, so the number is stored under the name num, matching the
source field prefix128::Prefix.num. -/
structure Pfx128 where
  num : Nat
deriving Repr, DecidableEq

/-- Modelled from the spec (section 4.2): netmask of a prefix length n over
128 bits, the all-ones value with the low (128 - n) bits cleared. -/
def netmask128 (n : Nat) : Nat :=
  (2 ^ 128 - 1) - (2 ^ (128 - n) - 1)

/-- Netmask of a validated prefix. -/
def Pfx128.net_mask (p : Pfx128) : Nat :=
  netmask128 p.num

/-- Modelled from the spec (section 4.2): the prefix validator of the wide
family, prefix128::new.  It fails with an InvalidPrefix error exactly when
the number exceeds the bit width 128. -/
def pfx128_new (num : Nat) : Except String Pfx128 :=
  if num ≤ 128 then .ok { num := num }
  else .error ("InvalidPrefix " ++ toString num)

/-- Tag for the is_private function pointer stored on an address; src
defines only the wide-family variant ipv6_is_private. -/
inductive VtIsPrivate where
  | ipv6_is_private_fn : VtIsPrivate
deriving Repr, DecidableEq

/-- Tag for the is_loopback function pointer stored on an address; src
defines only the wide-family variant ipv6_is_loopback. -/
inductive VtIsLoopback where
  | ipv6_is_loopback_fn : VtIsLoopback
deriving Repr, DecidableEq

/-- Tag for the to_ipv6 function pointer stored on an address; src defines
only the wide-family variant to_ipv6. -/
inductive VtToIpv6 where
  | to_ipv6_fn : VtToIpv6
deriving Repr, DecidableEq

/-- Which family bit layout an address carries (ip_bits::v4 or v6). -/
inductive IpBitsKind where
  | v4 : IpBitsKind
  | v6 : IpBitsKind
deriving Repr, DecidableEq

/-- The composite address entity of the repository.  host_address is the
BigUint value, pfx the validated prefix (named prefix in the source, a
Lean keyword), mapped the optional mapped address (its payload is never
constructed in src, so only presence is modelled), and the three vt fields
are the per-instance function pointers, modelled as tags. -/
structure IPAddress where
  ip_bits : IpBitsKind
  host_address : Nat
  pfx : Pfx128
  mapped : Option Unit
  vt_is_private : VtIsPrivate
  vt_is_loopback : VtIsLoopback
  vt_to_ipv6 : VtToIpv6
deriving Repr, DecidableEq

/-- Translation of ipv6::from_int: validate the prefix through the wide
prefix validator, propagate its error, and otherwise build the address
with the given value stored unchanged, no mapped address, and the three
wide-family function pointers bound. -/
def from_int (adr : Nat) (pfxnum : Nat) : Except String IPAddress :=
  match pfx128_new pfxnum with
  | .error e => .error e
  | .ok p =>
    .ok { ip_bits := .v6
          host_address := adr
          pfx := p
          mapped := none
          vt_is_private := .ipv6_is_private_fn
          vt_is_loopback := .ipv6_is_loopback_fn
          vt_to_ipv6 := .to_ipv6_fn }

/-- Translation of ipv6::from_str: parse the text as a BigUint in the given
radix; on failure return an unparsable error carrying the text, otherwise
defer to from_int. -/
def from_str (str : String) (radix : Nat) (pfxnum : Nat) : Except String IPAddress :=
  match biguint_from_str_radix str radix with
  | none => .error ("unparsable " ++ str)
  | some num => from_int num pfxnum

/-- Netmask handling of ipv6::new for the optional prefix part: no part
defaults to 128; otherwise the part must parse as a u8 (else an Invalid
Netmask error carrying the whole input), after which the source re-parses
the same part as a usize and unwraps, which is a panic when that second
parse fails. -/
def new_netmask_part (str : String) (o_netmask : Option String) :
    MayPanic (Except String Nat) :=
  match o_netmask with
  | none => .value (.ok 128)
  | some network =>
    match u8_from_str network with
    | none => .value (.error ("Invalid Netmask " ++ str))
    | some _ =>
      match usize_from_str network with
      | none => .panicked
      | some netmask => .value (.ok netmask)

/-- Translation of ipv6::new, the textual constructor: split at the first
slash, validate the address part against the wide grammar (else an Invalid
IP error carrying the whole input), convert it to a number, resolve the
netmask part, validate the prefix, and assemble the address with the
wide-family function pointers bound. -/
def new (str : String) : MayPanic (Except String IPAddress) :=
  let sp := split_at_slash str
  let ip := sp.1
  let o_netmask := sp.2
  if is_valid_ipv6 ip then
    match split_to_num ip with
    | .error e => .value (.error e)
    | .ok o_num =>
      match new_netmask_part str o_netmask with
      | .panicked => .panicked
      | .value (.error e) => .value (.error e)
      | .value (.ok netmask) =>
        match pfx128_new netmask with
        | .error e => .value (.error e)
        | .ok p =>
          .value (.ok { ip_bits := .v6
                        host_address := o_num
                        pfx := p
                        mapped := none
                        vt_is_private := .ipv6_is_private_fn
                        vt_is_loopback := .ipv6_is_loopback_fn
                        vt_to_ipv6 := .to_ipv6_fn })
  else
    .value (.error ("Invalid IP " ++ str))

/-- Modelled from the spec (section 6): parse dispatches on the family
detected from the text; a text containing a colon belongs to the wide
family and goes to the wide textual constructor.  The narrow family is not
part of src and is outside this model. -/
def IPAddress.parse (str : String) : MayPanic (Except String IPAddress) :=
  if str.data.contains ':' then new str
  else .value (.error ("narrow family not in scope " ++ str))

/-- Modelled from the spec (section 4.4): includes(other) holds when the
other value masked by this network netmask equals this value masked the
same way, and this prefix is at most the other prefix.  The repository
defines includes outside src. -/
def IPAddress.includes (self oth : IPAddress) : Bool :=
  (Nat.land oth.host_address (Pfx128.net_mask self.pfx) ==
     Nat.land self.host_address (Pfx128.net_mask self.pfx)) &&
  decide (self.pfx.num ≤ oth.pfx.num)

/-- Translation of ipv6::to_ipv6: a clone of the address, hence the
identity on the value model. -/
def to_ipv6 (ia : IPAddress) : IPAddress :=
  ia

/-- Translation of ipv6::ipv6_is_loopback: the host address equals one. -/
def ipv6_is_loopback (my : IPAddress) : Bool :=
  my.host_address == 1

/-- Translation of ipv6::ipv6_is_private: containment in the network
parsed from the fd00::/8 literal.  The source unwraps the parse result;
the unreachable failure branch is rendered as false. -/
def ipv6_is_private (my : IPAddress) : Bool :=
  match IPAddress.parse "fd00::/8" with
  | .value (.ok net) => IPAddress.includes net my
  | _ => false

/-- Dispatch of is_loopback through the bound function pointer. -/
def IPAddress.is_loopback (my : IPAddress) : Bool :=
  match my.vt_is_loopback with
  | .ipv6_is_loopback_fn => ipv6_is_loopback my

/-- Dispatch of is_private through the bound function pointer. -/
def IPAddress.is_private (my : IPAddress) : Bool :=
  match my.vt_is_private with
  | .ipv6_is_private_fn => ipv6_is_private my

/-- Dispatch of to_ipv6 through the bound function pointer. -/
def IPAddress.to_ipv6_dispatch (my : IPAddress) : IPAddress :=
  match my.vt_to_ipv6 with
  | .to_ipv6_fn => to_ipv6 my

/-- A hexadecimal digit character has value at most 15. -/
theorem hexVal_le (c : Char) (h : isHexDigitChar c = true) : hexVal c ≤ 15 := by
  unfold isHexDigitChar at h
  unfold hexVal
  simp only [Bool.or_eq_true, Bool.and_eq_true, decide_eq_true_iff] at h
  rcases h with (h | h) | h
  · rw [if_pos ⟨h.1, h.2⟩]; omega
  · rw [if_neg (by omega), if_pos ⟨h.1, h.2⟩]; omega
  · rw [if_neg (by omega), if_neg (by omega)]; omega

/-- Bound on the accumulating hexadecimal parse of a digit list. -/
theorem parseHexGroupAux_lt (cs : List Char) (acc : Nat)
    (h : ∀ c ∈ cs, isHexDigitChar c = true) :
    parseHexGroupAux cs acc < (acc + 1) * 16 ^ cs.length := by
  induction cs generalizing acc with
  | nil => simp [parseHexGroupAux]
  | cons c cs ih =>
    have hc : hexVal c ≤ 15 := hexVal_le c (h c (List.mem_cons_self c cs))
    have hrest : ∀ x ∈ cs, isHexDigitChar x = true :=
      fun x hx => h x (List.mem_cons_of_mem c hx)
    have hstep := ih (acc * 16 + hexVal c) hrest
    calc parseHexGroupAux (c :: cs) acc
        = parseHexGroupAux cs (acc * 16 + hexVal c) := rfl
      _ < (acc * 16 + hexVal c + 1) * 16 ^ cs.length := hstep
      _ ≤ ((acc + 1) * 16) * 16 ^ cs.length := by
          have hle : acc * 16 + hexVal c + 1 ≤ (acc + 1) * 16 := by omega
          exact Nat.mul_le_mul_right _ hle
      _ = (acc + 1) * 16 ^ (c :: cs).length := by
          rw [List.length_cons, pow_succ]
          ring

/-- The value of a valid group fits in one 16-bit slot. -/
theorem parseHexGroup_lt (g : List Char) (h : isValidGroup g = true) :
    parseHexGroup g < 65536 := by
  unfold isValidGroup at h
  simp only [Bool.and_eq_true, decide_eq_true_iff, List.all_eq_true] at h
  have hb := parseHexGroupAux_lt g 0 h.2
  have hlen : 16 ^ g.length ≤ 16 ^ 4 := Nat.pow_le_pow_right (by omega) h.1.2
  calc parseHexGroup g < (0 + 1) * 16 ^ g.length := hb
    _ = 16 ^ g.length := by ring
    _ ≤ 16 ^ 4 := hlen
    _ ≤ 65536 := by norm_num

/-- Bound on the group-composition fold: with each group below 2^16, the
result stays below the accumulated capacity. -/
theorem compose_fold_lt (gs : List (List Char)) (acc : Nat)
    (h : ∀ g ∈ gs, parseHexGroup g < 65536) :
    gs.foldl (fun acc g => acc * 65536 + parseHexGroup g) acc <
      (acc + 1) * 65536 ^ gs.length := by
  induction gs generalizing acc with
  | nil => simp
  | cons g gs ih =>
    have hg : parseHexGroup g < 65536 := h g (List.mem_cons_self g gs)
    have hrest : ∀ x ∈ gs, parseHexGroup x < 65536 :=
      fun x hx => h x (List.mem_cons_of_mem g hx)
    have hstep := ih (acc * 65536 + parseHexGroup g) hrest
    calc (g :: gs).foldl (fun acc g => acc * 65536 + parseHexGroup g) acc
        = gs.foldl (fun acc g => acc * 65536 + parseHexGroup g)
            (acc * 65536 + parseHexGroup g) := rfl
      _ < (acc * 65536 + parseHexGroup g + 1) * 65536 ^ gs.length := hstep
      _ ≤ ((acc + 1) * 65536) * 65536 ^ gs.length := by
          have hle : acc * 65536 + parseHexGroup g + 1 ≤ (acc + 1) * 65536 := by omega
          exact Nat.mul_le_mul_right _ hle
      _ = (acc + 1) * 65536 ^ (g :: gs).length := by
          rw [List.length_cons, pow_succ]
          ring

/-- A successful grammar expansion yields exactly eight valid groups. -/
theorem expandGroups_some (cs : List Char) (gs : List (List Char))
    (h : expandGroups cs = some gs) :
    gs.length = 8 ∧ ∀ g ∈ gs, isValidGroup g = true := by
  unfold expandGroups at h
  split at h
  · simp only [] at h
    split at h
    · rename_i p hcond
      simp only [Option.some.injEq] at h
      subst h
      simp only [Bool.and_eq_true, decide_eq_true_iff, List.all_eq_true] at hcond
      exact ⟨hcond.1, hcond.2⟩
    · simp at h
  · simp only [] at h
    split at h
    · rename_i l r hcond
      simp only [Option.some.injEq] at h
      subst h
      simp only [Bool.and_eq_true, decide_eq_true_iff, List.all_eq_true] at hcond
      constructor
      · simp only [List.length_append, List.length_replicate]
        omega
      · intro g hg
        simp only [List.mem_append, List.mem_replicate] at hg
        rcases hg with (hg | hg) | hg
        · exact hcond.1.1 g hg
        · rw [hg.2]; decide
        · exact hcond.1.2 g hg
    · simp at h
  · simp at h

/-- A grammatical wide-family text converts to a value below 2^128. -/
theorem split_to_num_ok (addr : String) (h : is_valid_ipv6 addr = true) :
    ∃ v, split_to_num addr = .ok v ∧ v < 2 ^ 128 := by
  unfold is_valid_ipv6 at h
  cases hg : expandGroups addr.data with
  | none => rw [hg] at h; simp at h
  | some gs =>
    obtain ⟨hlen, hval⟩ := expandGroups_some _ _ hg
    refine ⟨gs.foldl (fun acc g => acc * 65536 + parseHexGroup g) 0, ?_, ?_⟩
    · unfold split_to_num
      rw [hg]
    · have hb := compose_fold_lt gs 0 (fun g hgm => parseHexGroup_lt g (hval g hgm))
      rw [hlen] at hb
      norm_num at hb
      exact lt_of_lt_of_eq hb (by norm_num)

/-- A successful u8 parse is a successful core decimal parse within 255. -/
theorem u8_some_dec_core (s : String) (n : Nat) (h : u8_from_str s = some n) :
    dec_core s = some n ∧ n ≤ 255 := by
  unfold u8_from_str at h
  cases hd : dec_core s with
  | none => rw [hd] at h; simp at h
  | some m =>
    rw [hd] at h
    by_cases hm : m ≤ 255
    · simp only [hm, if_true] at h
      simp only [Option.some.injEq] at h
      subst h
      exact ⟨rfl, hm⟩
    · simp only [hm, if_false] at h
      simp at h

/-- A core decimal parse within 255 gives a successful u8 parse. -/
theorem dec_core_u8 (s : String) (n : Nat) (h : dec_core s = some n) (hn : n ≤ 255) :
    u8_from_str s = some n := by
  unfold u8_from_str
  rw [h]
  simp [hn]

/-- A core decimal parse above 255 fails the u8 parse. -/
theorem dec_core_u8_none (s : String) (n : Nat) (h : dec_core s = some n) (hn : 255 < n) :
    u8_from_str s = none := by
  unfold u8_from_str
  rw [h]
  simp
  omega

/-- A core decimal parse within the usize range gives a successful usize
parse. -/
theorem dec_core_usize (s : String) (n : Nat) (h : dec_core s = some n)
    (hn : n ≤ 18446744073709551615) : usize_from_str s = some n := by
  unfold usize_from_str
  rw [h]
  simp [hn]

/-- Whenever the u8 parse of a string succeeds, the usize parse of the same
string succeeds with the same value: the unwrap in ipv6::new is
unreachable. -/
theorem u8_to_usize (s : String) (n : Nat) (h : u8_from_str s = some n) :
    usize_from_str s = some n := by
  obtain ⟨hd, hle⟩ := u8_some_dec_core s n h
  exact dec_core_usize s n hd (by omega)

/-- A failed core decimal parse fails the u8 parse. -/
theorem dec_core_none_u8 (s : String) (h : dec_core s = none) :
    u8_from_str s = none := by
  unfold u8_from_str
  rw [h]

/-- Behavior of the textual constructor on a valid address part with no
prefix part: the default prefix 128 is used. -/
theorem new_valid_none (s ip : String) (h1 : split_at_slash s = (ip, none))
    (h2 : is_valid_ipv6 ip = true) (v : Nat) (hv : split_to_num ip = .ok v) :
    new s = .value (.ok
      { ip_bits := .v6, host_address := v, pfx := ⟨128⟩, mapped := none,
        vt_is_private := .ipv6_is_private_fn, vt_is_loopback := .ipv6_is_loopback_fn,
        vt_to_ipv6 := .to_ipv6_fn }) := by
  simp [new, h1, h2, hv, new_netmask_part, pfx128_new]

/-- Behavior of the textual constructor on a valid address part with a
prefix part that parses as a u8 within 128: that prefix is used. -/
theorem new_valid_some (s ip pp : String) (n : Nat)
    (h1 : split_at_slash s = (ip, some pp)) (h2 : is_valid_ipv6 ip = true)
    (v : Nat) (hv : split_to_num ip = .ok v)
    (hu : u8_from_str pp = some n) (hn : n ≤ 128) :
    new s = .value (.ok
      { ip_bits := .v6, host_address := v, pfx := ⟨n⟩, mapped := none,
        vt_is_private := .ipv6_is_private_fn, vt_is_loopback := .ipv6_is_loopback_fn,
        vt_to_ipv6 := .to_ipv6_fn }) := by
  have hus : usize_from_str pp = some n := u8_to_usize pp n hu
  simp [new, h1, h2, hv, new_netmask_part, hu, hus, pfx128_new, hn]

/-- Behavior of the textual constructor on an invalid address part: an
Invalid IP error carrying the whole input. -/
theorem new_invalid (s ip : String) (o : Option String)
    (h1 : split_at_slash s = (ip, o)) (h2 : is_valid_ipv6 ip = false) :
    new s = .value (.error ("Invalid IP " ++ s)) := by
  simp [new, h1, h2]

/-- Behavior of the textual constructor on a valid address part whose
prefix part fails the u8 parse: an Invalid Netmask error carrying the
whole input. -/
theorem new_bad_u8 (s ip pp : String) (h1 : split_at_slash s = (ip, some pp))
    (h2 : is_valid_ipv6 ip = true) (hu : u8_from_str pp = none) :
    new s = .value (.error ("Invalid Netmask " ++ s)) := by
  obtain ⟨v, hv, _⟩ := split_to_num_ok ip h2
  simp [new, h1, h2, hv, new_netmask_part, hu]

/-- Behavior of the textual constructor on a valid address part whose
prefix part parses as a u8 above 128: the prefix validator rejects it. -/
theorem new_big_pfx (s ip pp : String) (n : Nat)
    (h1 : split_at_slash s = (ip, some pp)) (h2 : is_valid_ipv6 ip = true)
    (hu : u8_from_str pp = some n) (hn : 128 < n) :
    new s = .value (.error ("InvalidPrefix " ++ toString n)) := by
  obtain ⟨v, hv, _⟩ := split_to_num_ok ip h2
  have hus : usize_from_str pp = some n := u8_to_usize pp n hu
  have hn2 : ¬ n ≤ 128 := by omega
  simp [new, h1, h2, hv, new_netmask_part, hu, hus, pfx128_new, hn2]

/-- The address produced by parsing the private-use literal fd00::/8. -/
def fd00net : IPAddress :=
  { ip_bits := .v6, host_address := 0xfd00 * 2 ^ 112, pfx := ⟨8⟩, mapped := none,
    vt_is_private := .ipv6_is_private_fn, vt_is_loopback := .ipv6_is_loopback_fn,
    vt_to_ipv6 := .to_ipv6_fn }

/-- Parsing the private-use literal succeeds and yields fd00net. -/
theorem parse_fd00 : IPAddress.parse "fd00::/8" = .value (.ok fd00net) := rfl

/-- The wide-family private test is containment in fd00net. -/
theorem ipv6_is_private_eq (my : IPAddress) :
    ipv6_is_private my = IPAddress.includes fd00net my := by
  unfold ipv6_is_private
  rw [parse_fd00]

/-- The containment predicate, spelled out over values and prefixes. -/
theorem includes_iff (self oth : IPAddress) :
    IPAddress.includes self oth = true ↔
      (Nat.land oth.host_address (Pfx128.net_mask self.pfx) =
         Nat.land self.host_address (Pfx128.net_mask self.pfx) ∧
       self.pfx.num ≤ oth.pfx.num) := by
  simp [IPAddress.includes]

/-- C1: for every wide-family address, is_loopback holds exactly when the
numeric value equals 1, whatever the prefix; and parsing ::1 yields value
1, prefix 128, and a loopback address. -/
theorem claim_C1 :
    (∀ a : IPAddress, IPAddress.is_loopback a = true ↔ a.host_address = 1) ∧
    (∃ a : IPAddress, IPAddress.parse "::1" = .value (.ok a) ∧
      a.host_address = 1 ∧ a.pfx.num = 128 ∧ IPAddress.is_loopback a = true) := by
  constructor
  · intro a
    obtain ⟨bits, host, p, m, vp, vl, vt⟩ := a
    cases vl
    simp [IPAddress.is_loopback, ipv6_is_loopback]
  · exact ⟨{ ip_bits := .v6, host_address := 1, pfx := ⟨128⟩, mapped := none,
             vt_is_private := .ipv6_is_private_fn, vt_is_loopback := .ipv6_is_loopback_fn,
             vt_to_ipv6 := .to_ipv6_fn }, rfl, rfl, rfl, rfl⟩

/-- C2: for every wide-family address, is_private holds exactly when the
network parsed from fd00::/8 includes it, that is, when the value masked
by that network netmask matches the network and the network prefix 8 is at
most the address prefix; and parse of fd00::1 is private. -/
theorem claim_C2 :
    (∃ net : IPAddress, IPAddress.parse "fd00::/8" = .value (.ok net) ∧
      net.host_address = 0xfd00 * 2 ^ 112 ∧ net.pfx.num = 8 ∧
      ∀ a : IPAddress, IPAddress.is_private a = true ↔
        (Nat.land a.host_address (Pfx128.net_mask net.pfx) =
           Nat.land net.host_address (Pfx128.net_mask net.pfx) ∧
         net.pfx.num ≤ a.pfx.num)) ∧
    (∃ b : IPAddress, IPAddress.parse "fd00::1" = .value (.ok b) ∧
      IPAddress.is_private b = true) := by
  constructor
  · refine ⟨fd00net, parse_fd00, rfl, rfl, ?_⟩
    intro a
    obtain ⟨bits, host, p, m, vp, vl, vt⟩ := a
    cases vp
    show ipv6_is_private _ = true ↔ _
    rw [ipv6_is_private_eq]
    exact includes_iff fd00net _
  · refine ⟨{ ip_bits := .v6, host_address := 0xfd00 * 2 ^ 112 + 1, pfx := ⟨128⟩,
              mapped := none, vt_is_private := .ipv6_is_private_fn,
              vt_is_loopback := .ipv6_is_loopback_fn, vt_to_ipv6 := .to_ipv6_fn },
            rfl, ?_⟩
    show ipv6_is_private _ = true
    rw [ipv6_is_private_eq]
    rfl

/-- C3 counterexample: the numeric constructor accepts a value of 2^128,
which is not below the family bit width bound, and stores it unchanged. -/
theorem claim_C3_counterexample :
    from_int (2 ^ 128) 128 = .ok
      { ip_bits := .v6, host_address := 2 ^ 128, pfx := ⟨128⟩, mapped := none,
        vt_is_private := .ipv6_is_private_fn, vt_is_loopback := .ipv6_is_loopback_fn,
        vt_to_ipv6 := .to_ipv6_fn } := rfl

/-- C3 amended: the numeric constructor validates only the prefix; it
succeeds for every value (stored unchanged, even at or above 2^128)
whenever the prefix is at most 128, and errors exactly when the prefix
exceeds 128. -/
theorem claim_C3_amended (adr n : Nat) :
    (n ≤ 128 → from_int adr n = .ok
      { ip_bits := .v6, host_address := adr, pfx := ⟨n⟩, mapped := none,
        vt_is_private := .ipv6_is_private_fn, vt_is_loopback := .ipv6_is_loopback_fn,
        vt_to_ipv6 := .to_ipv6_fn }) ∧
    (128 < n → from_int adr n = .error ("InvalidPrefix " ++ toString n)) := by
  constructor
  · intro h
    simp [from_int, pfx128_new, h]
  · intro h
    have h2 : ¬ n ≤ 128 := by omega
    simp [from_int, pfx128_new, h2]

/-- Witness for the amended C3 at concrete inputs on both sides of the
prefix bound. -/
theorem claim_C3_amended_witness :
    from_int 7 128 = .ok
      { ip_bits := .v6, host_address := 7, pfx := ⟨128⟩, mapped := none,
        vt_is_private := .ipv6_is_private_fn, vt_is_loopback := .ipv6_is_loopback_fn,
        vt_to_ipv6 := .to_ipv6_fn } ∧
    from_int 7 129 = .error ("InvalidPrefix " ++ toString 129) :=
  ⟨(claim_C3_amended 7 128).1 (by omega), (claim_C3_amended 7 129).2 (by omega)⟩

/-- C7: the wide-family to_ipv6 conversion is the identity, both as the
bound function and through the dispatch. -/
theorem claim_C7 (ia : IPAddress) :
    to_ipv6 ia = ia ∧ IPAddress.to_ipv6_dispatch ia = ia := by
  refine ⟨rfl, ?_⟩
  obtain ⟨bits, host, p, m, vp, vl, vt⟩ := ia
  cases vt
  rfl

/-- C9: for every string, radix in the asserted range 2..=36, and prefix,
from_str returns the unparsable error carrying the string exactly when the
radix parse fails, and otherwise agrees with from_int on the parsed
value. -/
theorem claim_C9 (s : String) (r n : Nat) (h : 2 ≤ r ∧ r ≤ 36) :
    (biguint_from_str_radix s r = none →
      from_str s r n = .error ("unparsable " ++ s)) ∧
    (∀ v, biguint_from_str_radix s r = some v → from_str s r n = from_int v n) := by
  constructor
  · intro hb
    simp [from_str, hb]
  · intro v hb
    simp [from_str, hb]

/-- Witness for C9 at a failing and a succeeding concrete parse. -/
theorem claim_C9_witness :
    from_str "zz" 16 0 = .error ("unparsable " ++ "zz") ∧
    from_str "ff" 16 0 = from_int 255 0 :=
  ⟨(claim_C9 "zz" 16 0 ⟨by omega, by omega⟩).1 (by decide),
   (claim_C9 "ff" 16 0 ⟨by omega, by omega⟩).2 255 (by decide)⟩

/-- C10: for every value and every prefix accepted by the wide prefix
validator, from_int succeeds, stores the value unchanged with no masking,
sets no mapped address, and binds the three wide-family function
pointers. -/
theorem claim_C10 (adr n : Nat) (p : Pfx128) (h : pfx128_new n = .ok p) :
    from_int adr n = .ok
      { ip_bits := .v6, host_address := adr, pfx := p, mapped := none,
        vt_is_private := .ipv6_is_private_fn, vt_is_loopback := .ipv6_is_loopback_fn,
        vt_to_ipv6 := .to_ipv6_fn } := by
  simp [from_int, h]

/-- Witness for C10 at a value of 2^128 (stored unchanged, no reduction)
and prefix 64. -/
theorem claim_C10_witness :
    from_int (2 ^ 128) 64 = .ok
      { ip_bits := .v6, host_address := 2 ^ 128, pfx := ⟨64⟩, mapped := none,
        vt_is_private := .ipv6_is_private_fn, vt_is_loopback := .ipv6_is_loopback_fn,
        vt_to_ipv6 := .to_ipv6_fn } :=
  claim_C10 (2 ^ 128) 64 ⟨64⟩ rfl

/-- C4: a valid wide-family text with no slash yields prefix 128, and one
with a slash and a decimal prefix part within 128 yields exactly that
prefix. -/
theorem claim_C4 (s ip : String) :
    (split_at_slash s = (ip, none) → is_valid_ipv6 ip = true →
      ∃ a, new s = .value (.ok a) ∧ a.pfx.num = 128) ∧
    (∀ pp n, split_at_slash s = (ip, some pp) → is_valid_ipv6 ip = true →
      dec_value pp = some n → n ≤ 128 →
      ∃ a, new s = .value (.ok a) ∧ a.pfx.num = n) := by
  constructor
  · intro h1 h2
    obtain ⟨v, hv, _⟩ := split_to_num_ok ip h2
    exact ⟨_, new_valid_none s ip h1 h2 v hv, rfl⟩
  · intro pp n h1 h2 hd hn
    obtain ⟨v, hv, _⟩ := split_to_num_ok ip h2
    have hu : u8_from_str pp = some n := dec_core_u8 pp n hd (by omega)
    exact ⟨_, new_valid_some s ip pp n h1 h2 v hv hu hn, rfl⟩

/-- Witness for C4 at the documented example with prefix part 64. -/
theorem claim_C4_witness :
    ∃ a, new "2001:db8::8:800:200c:417a/64" = .value (.ok a) ∧ a.pfx.num = 64 :=
  (claim_C4 "2001:db8::8:800:200c:417a/64" "2001:db8::8:800:200c:417a").2 "64" 64
    (by decide) (by decide) (by decide) (by omega)

/-- C5 counterexample: at the concrete input ::1/abc the prefix part is
not a decimal integer, yet the error returned is the Invalid Netmask one
carrying the whole input, not an InvalidPrefix error carrying the
offending prefix part. -/
theorem claim_C5_counterexample :
    new "::1/abc" = .value (.error ("Invalid Netmask " ++ "::1/abc")) := rfl

/-- C5 amended: a valid address part with an invalid prefix part always
yields an error and no address, with the error pinned per case: a prefix
part that is not a decimal integer, or whose value exceeds 255, gives the
Invalid Netmask error carrying the whole input; a decimal value in
129..=255 reaches the prefix validator and gives the InvalidPrefix error
carrying the offending number. -/
theorem claim_C5_amended (s ip pp : String)
    (h1 : split_at_slash s = (ip, some pp))
    (h2 : is_valid_ipv6 ip = true) :
    (dec_value pp = none →
      new s = .value (.error ("Invalid Netmask " ++ s))) ∧
    (∀ n, dec_value pp = some n → 255 < n →
      new s = .value (.error ("Invalid Netmask " ++ s))) ∧
    (∀ n, dec_value pp = some n → 128 < n → n ≤ 255 →
      new s = .value (.error ("InvalidPrefix " ++ toString n))) := by
  refine ⟨?_, ?_, ?_⟩
  · intro h3
    exact new_bad_u8 s ip pp h1 h2 (dec_core_none_u8 pp h3)
  · intro n h3 hn
    exact new_bad_u8 s ip pp h1 h2 (dec_core_u8_none pp n h3 hn)
  · intro n h3 hn hle
    exact new_big_pfx s ip pp n h1 h2 (dec_core_u8 pp n h3 hle) hn

/-- Witness for the amended C5 at one concrete input of each error case:
a non-decimal part, a decimal part above 255, and one in 129..=255. -/
theorem claim_C5_amended_witness :
    new "::1/x" = .value (.error ("Invalid Netmask " ++ "::1/x")) ∧
    new "::1/300" = .value (.error ("Invalid Netmask " ++ "::1/300")) ∧
    new "::1/200" = .value (.error ("InvalidPrefix " ++ toString 200)) :=
  ⟨(claim_C5_amended "::1/x" "::1" "x" (by decide) (by decide)).1 (by decide),
   (claim_C5_amended "::1/300" "::1" "300" (by decide) (by decide)).2.1 300
     (by decide) (by omega),
   (claim_C5_amended "::1/200" "::1" "200" (by decide) (by decide)).2.2 200
     (by decide) (by omega) (by omega)⟩

/-- C6: an address part that violates the wide grammar makes the textual
constructor return an error carrying the offending text; in particular a
text with more than one compression marker is invalid, and the documented
example fails. -/
theorem claim_C6 (s ip : String) (o : Option String) :
    (split_at_slash s = (ip, o) → is_valid_ipv6 ip = false →
      new s = .value (.error ("Invalid IP " ++ s))) ∧
    (2 < (splitCC s.data).length → is_valid_ipv6 s = false) ∧
    new "ffff::1::2" = .value (.error ("Invalid IP " ++ "ffff::1::2")) := by
  refine ⟨fun h1 h2 => new_invalid s ip o h1 h2, ?_, ?_⟩
  · intro hlen
    unfold is_valid_ipv6 expandGroups
    rcases hsp : splitCC s.data with _ | ⟨p, _ | ⟨r, _ | ⟨x, tl⟩⟩⟩
    · rw [hsp] at hlen; simp at hlen
    · rw [hsp] at hlen; simp at hlen
    · rw [hsp] at hlen; simp at hlen
    · rfl
  · rfl

/-- Witness for C6 at the documented two-marker example. -/
theorem claim_C6_witness :
    new "ffff::1::2" = .value (.error ("Invalid IP " ++ "ffff::1::2")) :=
  (claim_C6 "ffff::1::2" "ffff::1::2" none).1 (by decide) (by decide)

/-- C8: the textual constructor is total and atomic on every input: it
never reaches the internal panic and returns either a valid address
(value within 128 bits, prefix at most 128) or an error; and the u8 parse
guarding the unwrapped usize parse makes the unwrap unreachable. -/
theorem claim_C8 :
    (∀ s : String,
      (∃ a, new s = .value (.ok a) ∧ a.host_address < 2 ^ 128 ∧ a.pfx.num ≤ 128) ∨
      (∃ e, new s = .value (.error e))) ∧
    (∀ t n, u8_from_str t = some n → usize_from_str t = some n) := by
  constructor
  · intro s
    rcases hsp : split_at_slash s with ⟨ip, o⟩
    cases hb : is_valid_ipv6 ip with
    | false =>
      right
      exact ⟨_, new_invalid s ip o hsp hb⟩
    | true =>
      obtain ⟨v, hnum, hvlt⟩ := split_to_num_ok ip hb
      rcases o with _ | pp
      · left
        exact ⟨_, new_valid_none s ip hsp hb v hnum, hvlt, Nat.le_refl 128⟩
      · rcases hu : u8_from_str pp with _ | n
        · right
          exact ⟨_, new_bad_u8 s ip pp hsp hb hu⟩
        · by_cases hn : n ≤ 128
          · left
            exact ⟨_, new_valid_some s ip pp n hsp hb v hnum hu hn, hvlt, hn⟩
          · right
            exact ⟨_, new_big_pfx s ip pp n hsp hb hu (by omega)⟩
  · intro t n h
    exact u8_to_usize t n h

/-- Witness for C8: the unwrap-guard implication at a concrete string. -/
theorem claim_C8_witness :
    usize_from_str "5" = some 5 :=
  claim_C8.2 "5" 5 (by decide)
